import Mathlib

/-
Verification of the BiciMAD data-collector repository
(`src/collector/BiciMAD_Data_Collector.py`,
 `src/collector/BiciMAD_Scheduled_Collector.py`).

The Python code is shallowly embedded: JSON payloads become the `JVal`
inductive; the dynamic (duck-typed, exception-raising) operations the
collector performs on payload values (`dict.get`, indexing, `in`, `+`,
truthiness, `== 0`) are modelled as executable Lean functions returning
`Except PyErr` where the Python operation can raise; the filesystem and
the collector's statistics dictionary become explicit state records
threaded through the cycle functions.
-/

set_option maxHeartbeats 1000000

namespace BiciMAD

/-- JSON-like values, the shape of everything the BiciMAD API returns.
Numbers are modelled as `Int`: the collector only compares them to zero
and adds them, never divides or uses fractional parts. -/
inductive JVal where
  | null
  | bool (b : Bool)
  | int (n : Int)
  | str (s : String)
  | arr (l : List JVal)
  | obj (fields : List (String × JVal))
  deriving Repr

mutual

/-- Structural equality of payload values (Python `==` restricted to
same-typed operands, which is all the collector compares). -/
def JVal.beq : JVal → JVal → Bool
  | .null, .null => true
  | .bool a, .bool b => a == b
  | .int a, .int b => a == b
  | .str a, .str b => a == b
  | .arr a, .arr b => JVal.beqList a b
  | .obj a, .obj b => JVal.beqFields a b
  | _, _ => false

/-- Elementwise equality of payload lists. -/
def JVal.beqList : List JVal → List JVal → Bool
  | [], [] => true
  | x :: xs, y :: ys => JVal.beq x y && JVal.beqList xs ys
  | _, _ => false

/-- Elementwise equality of object field lists. -/
def JVal.beqFields : List (String × JVal) → List (String × JVal) → Bool
  | [], [] => true
  | (k, x) :: xs, (k', y) :: ys => k == k' && JVal.beq x y && JVal.beqFields xs ys
  | _, _ => false

end

instance : BEq JVal := ⟨JVal.beq⟩

/-- Exceptions the modelled Python operations can raise. -/
inductive PyErr where
  | typeError
  | indexError
  | keyError
  | attributeError
  | osError
  deriving DecidableEq, Repr

/-- Python truthiness (`if x:`) of a JSON value. -/
def pyTruthy : JVal → Bool
  | .null => false
  | .bool b => b
  | .int n => n != 0
  | .str s => s != ""
  | .arr l => !l.isEmpty
  | .obj f => !f.isEmpty

/-- Python `x == 0`: true for the integer 0 and for `False` (which Python
compares equal to 0); containers, strings and `None` never equal 0. -/
def pyEqZero : JVal → Bool
  | .int n => n == 0
  | .bool b => !b
  | _ => false

/-- Python `dict.get(key, default)` on an object's field list. -/
def pyDictGet (d : List (String × JVal)) (k : String) (dflt : JVal) : JVal :=
  match d.lookup k with
  | some v => v
  | none => dflt

/-- Python `key in dict` on an object's field list. -/
def pyHasKey (d : List (String × JVal)) (k : String) : Bool :=
  (d.lookup k).isSome

/-- Python `x[i]` for a non-negative index: lists and strings are
indexable (raising `IndexError` past the end), everything else raises
`TypeError`. -/
def pyIndex (v : JVal) (i : Nat) : Except PyErr JVal :=
  match v with
  | .arr l =>
    match l.get? i with
    | some x => .ok x
    | none => .error .indexError
  | .str s =>
    match s.data.get? i with
    | some c => .ok (.str (String.mk [c]))
    | none => .error .indexError
  | _ => .error .typeError

/-- Substring occurrence test on character lists. -/
def charsInfix (pat : List Char) (s : List Char) : Bool :=
  match s with
  | [] => pat.isEmpty
  | _ :: rest => pat.isPrefixOf s || charsInfix pat rest

/-- Python `key in x` for a string key: key membership for dicts,
element membership for lists, substring test for strings; `in` on a
number, boolean or `None` raises `TypeError`. -/
def pyContains (k : String) (v : JVal) : Except PyErr Bool :=
  match v with
  | .obj d => .ok (pyHasKey d k)
  | .arr l => .ok (l.any (fun e => e == .str k))
  | .str s => .ok (charsInfix k.data s.data)
  | _ => .error .typeError

/-- Python `x[key]` for a string key: dict item lookup (raising
`KeyError` when absent); subscripting a list or string with a string
key raises `TypeError`, as does subscripting a scalar. -/
def pyGetItem (v : JVal) (k : String) : Except PyErr JVal :=
  match v with
  | .obj d =>
    match d.lookup k with
    | some x => .ok x
    | none => .error .keyError
  | _ => .error .typeError

/-- Python iteration `for e in x`: lists yield their elements, strings
their characters, dicts their keys; scalars raise `TypeError`. -/
def pyIterElems (v : JVal) : Except PyErr (List JVal) :=
  match v with
  | .arr l => .ok l
  | .str s => .ok (s.data.map (fun c => .str (String.mk [c])))
  | .obj d => .ok (d.map (fun p => .str p.1))
  | _ => .error .typeError

/-- A value Python treats as an integer in arithmetic (`bool` is an
`int` subtype: `True` is 1, `False` is 0). -/
def jint : JVal → Option Int
  | .int n => some n
  | .bool b => some (if b then 1 else 0)
  | _ => none

/-- Python `a + b` on payload values: numeric addition on ints/bools,
concatenation on strings and on lists, `TypeError` otherwise. -/
def pyAdd (a b : JVal) : Except PyErr JVal :=
  match jint a, jint b with
  | some x, some y => .ok (.int (x + y))
  | _, _ =>
    match a, b with
    | .str s, .str t => .ok (.str (s ++ t))
    | .arr s, .arr t => .ok (.arr (s ++ t))
    | _, _ => .error .typeError

/-! ### Text normalizer (`BiciMADCollector.normalize_text`) -/

/-- One step table of the NFKD canonical decompositions the collector
relies on: the accented Latin letters of the station names decompose to
their base letter followed by a combining mark (U+0300..U+036F).
Characters outside the table are already decomposed. -/
def decompTable : List (Char × List Char) :=
  [('\u00e1', ['a', '\u0301']), ('\u00e9', ['e', '\u0301']), ('\u00ed', ['i', '\u0301']),
   ('\u00f3', ['o', '\u0301']), ('\u00fa', ['u', '\u0301']), ('\u00f1', ['n', '\u0303']),
   ('\u00fc', ['u', '\u0308']), ('\u00e7', ['c', '\u0327']),
   ('\u00c1', ['A', '\u0301']), ('\u00c9', ['E', '\u0301']), ('\u00cd', ['I', '\u0301']),
   ('\u00d3', ['O', '\u0301']), ('\u00da', ['U', '\u0301']), ('\u00d1', ['N', '\u0303']),
   ('\u00dc', ['U', '\u0308'])]

/-- NFKD decomposition of one character (`unicodedata.normalize('NFKD', .)`
applied characterwise). -/
def decompose (c : Char) : List Char :=
  match decompTable.lookup c with
  | some l => l
  | none => [c]

/-- `unicodedata.combining(c) != 0`: the combining diacritical marks
produced by the decompositions above all live in U+0300..U+036F. -/
def isCombining (c : Char) : Bool :=
  decide (0x300 ≤ c.toNat ∧ c.toNat ≤ 0x36F)

/-- A character the regex `[^\x00-\x7F]+` keeps (code point ≤ 0x7F). -/
def isAsciiChar (c : Char) : Bool :=
  decide (c.toNat ≤ 0x7F)

/-- `str.replace(pat, rep)`: replace every occurrence of `pat`,
scanning left to right.  The fuel argument bounds the scan length; the
wrapper passes the string's length, which is always enough because each
step consumes at least one character. -/
def replaceAllAux : Nat → List Char → List Char → List Char → List Char
  | 0, _, _, s => s
  | fuel + 1, pat, rep, s =>
    match s with
    | [] => []
    | c :: rest =>
      if pat.isPrefixOf s then rep ++ replaceAllAux fuel pat rep (s.drop pat.length)
      else c :: replaceAllAux fuel pat rep rest

/-- Python `str.replace` on character lists. -/
def pyReplace (pat rep s : List Char) : List Char :=
  replaceAllAux s.length pat rep s

/-- The character-list pipeline of `normalize_text`: replace `"nº"` by
`"n."` and `"º"` by `"."`, NFKD-decompose, drop combining marks, drop
remaining non-ASCII characters. -/
def normalizeChars (s : List Char) : List Char :=
  let s1 := pyReplace ['n', '\u00ba'] ['n', '.'] s
  let s2 := pyReplace ['\u00ba'] ['.'] s1
  let s3 := (s2.map decompose).flatten.filter (fun c => !isCombining c)
  s3.filter isAsciiChar

/-- `BiciMADCollector.normalize_text` on a string: falsy (empty) input
returns the empty string, otherwise the replace/decompose/strip
pipeline runs. -/
def normalize_text (s : String) : String :=
  if s = "" then "" else String.mk (normalizeChars s.data)

/-- `normalize_text` applied to a payload value, as the extractor does:
a falsy value (`None`, `''`, `0`, ...) returns `""` before any string
method is touched; a truthy string runs the pipeline; a truthy
non-string raises `AttributeError` at `text.replace`. -/
def normalize_jval (v : JVal) : Except PyErr String :=
  if pyTruthy v then
    match v with
    | .str s => .ok (normalize_text s)
    | _ => .error .attributeError
  else .ok ""

/-! ### Station record extraction (`BiciMADCollector.process_stations_data`) -/

/-- One row of the tabular output, the `station_data` dictionary built
for each station.  Field values that come straight from the payload
keep their dynamic `JVal` type. -/
structure StationRecord where
  timestamp : String
  station_id : JVal
  name : String
  address : String
  longitude : JVal
  latitude : JVal
  total_bases : JVal
  active_bases : JVal
  available_bikes : JVal
  free_bases : JVal
  reservations : JVal
  status : Nat
  deriving Repr

/-- `station.get('geometry', {}).get('coordinates', [0, 0])[i]`: the
`[0, 0]` default applies only when the key is missing; a present
non-dict geometry raises `AttributeError`, and the final index is
unguarded. -/
def rawCoord (d : List (String × JVal)) (i : Nat) : Except PyErr JVal :=
  match pyDictGet d "geometry" (.obj []) with
  | .obj g => pyIndex (pyDictGet g "coordinates" (.arr [.int 0, .int 0])) i
  | _ => .error .attributeError

/-- `'light' in station and isinstance(station.get('light'), dict)`. -/
def lightIsDict (d : List (String × JVal)) : Bool :=
  match d.lookup "light" with
  | some (.obj _) => true
  | _ => false

/-- `station.get('light', {}).get(k, 0)` (only reached when the light
field is a dict). -/
def lightGet (d : List (String × JVal)) (k : String) : JVal :=
  match pyDictGet d "light" (.obj []) with
  | .obj ld => pyDictGet ld k (.int 0)
  | _ => .int 0

/-- The body of the `for station in data['data']` loop: builds one
`StationRecord` and reports whether the zero-coordinate warning fired.
Any Python exception the body would raise is returned as `.error` and,
because the loop has no per-entry handler, aborts the whole batch. -/
def extractStation (ts : String) (station : JVal) : Except PyErr (StationRecord × Bool) :=
  match station with
  | .obj d =>
    match normalize_jval (pyDictGet d "name" (.str "")) with
    | .error e => .error e
    | .ok name =>
    match normalize_jval (pyDictGet d "address" (.str "")) with
    | .error e => .error e
    | .ok address =>
    match rawCoord d 0 with
    | .error e => .error e
    | .ok lon0 =>
    match rawCoord d 1 with
    | .error e => .error e
    | .ok lat0 =>
    let longitude := if pyEqZero lon0 && pyHasKey d "longitude"
      then pyDictGet d "longitude" (.int 0) else lon0
    let latitude := if pyEqZero lat0 && pyHasKey d "latitude"
      then pyDictGet d "latitude" (.int 0) else lat0
    let availability0 := pyDictGet d "dock_bikes" (.int 0)
    let freeBases0 := pyDictGet d "free_bases" (.int 0)
    let totalBases0 := pyDictGet d "total_bases" (.int 0)
    let availability := if pyEqZero availability0 && lightIsDict d
      then lightGet d "availability" else availability0
    let freeBases := if pyEqZero freeBases0 && lightIsDict d
      then lightGet d "free" else freeBases0
    match pyAdd availability freeBases with
    | .error e => .error e
    | .ok active =>
    let totalBases := if pyEqZero totalBases0 then active else totalBases0
    let record : StationRecord :=
      { timestamp := ts
        station_id := pyDictGet d "id" .null
        name := name
        address := address
        longitude := longitude
        latitude := latitude
        total_bases := totalBases
        active_bases := active
        available_bikes := availability
        free_bases := freeBases
        reservations := pyDictGet d "reservations" (.int 0)
        status := if pyTruthy (pyDictGet d "activate" (.bool false)) then 1 else 0 }
    let warned := pyEqZero longitude || pyEqZero latitude
    .ok (record, warned)
  | _ => .error .attributeError

/-- Run the extraction loop over the entries of `data['data']` in
order, stopping at the first exception exactly as the unguarded Python
loop does. -/
def extractLoop (ts : String) : List JVal → Except PyErr (List (StationRecord × Bool))
  | [] => .ok []
  | e :: rest =>
    match extractStation ts e with
    | .error err => .error err
    | .ok r =>
      match extractLoop ts rest with
      | .error err => .error err
      | .ok rs => .ok (r :: rs)

/-- `BiciMADCollector.process_stations_data`: `.ok none` models the
`return None` paths (falsy payload, missing `'data'` key, zero rows);
`.ok (some (rows, warns))` is a produced DataFrame together with the
number of zero-coordinate warnings emitted; `.error` is an uncaught
exception escaping to `collect_data`. -/
def process_stations_data (ts : String) (data : JVal) :
    Except PyErr (Option (List StationRecord × Nat)) :=
  if pyTruthy data then
    match pyContains "data" data with
    | .error e => .error e
    | .ok hasData =>
      if hasData then
        match pyGetItem data "data" with
        | .error e => .error e
        | .ok inner =>
          match pyIterElems inner with
          | .error e => .error e
          | .ok entries =>
            match extractLoop ts entries with
            | .error e => .error e
            | .ok results =>
              let rows := results.map (fun r => r.1)
              let warns := (results.filter (fun r => r.2)).length
              if rows.isEmpty then .ok none else .ok (some (rows, warns))
      else .ok none
  else .ok none

/-- A payload whose `'data'` key holds the given entry list, the shape
the API returns. -/
def mkPayload (entries : List JVal) : JVal :=
  .obj [("data", .arr entries)]

/-- Whether a modelled Python computation finished without raising. -/
def isOkE {ε α : Type} : Except ε α → Bool
  | .ok _ => true
  | .error _ => false

/-! ### Lemmas about the normalizer -/

theorem lookup_none_of_keys_gt (c : Char) (hc : c.toNat ≤ 127) :
    ∀ l : List (Char × List Char), (∀ p ∈ l, 127 < p.1.toNat) → l.lookup c = none := by
  intro l
  induction l with
  | nil => intro _; rfl
  | cons p t ih =>
    intro hl
    have hk : 127 < p.1.toNat := hl p (List.mem_cons_self _ _)
    have hne : (c == p.1) = false := by
      apply beq_eq_false_iff_ne.mpr
      intro he
      rw [he] at hc
      omega
    obtain ⟨k, v⟩ := p
    simp only [List.lookup, hne]
    exact ih (fun q hq => hl q (List.mem_cons_of_mem _ hq))

theorem decompose_ascii (c : Char) (h : isAsciiChar c = true) : decompose c = [c] := by
  have hc : c.toNat ≤ 127 := by simpa [isAsciiChar] using h
  have hkeys : ∀ p ∈ decompTable, 127 < p.1.toNat := by decide
  simp [decompose, lookup_none_of_keys_gt c hc decompTable hkeys]

theorem isCombining_ascii (c : Char) (h : isAsciiChar c = true) : isCombining c = false := by
  simp only [isAsciiChar, decide_eq_true_eq] at h
  simp only [isCombining, decide_eq_false_iff_not]
  omega

theorem replaceAllAux_id (pat rep : List Char) (x : Char) (hx : x ∈ pat)
    (hxa : isAsciiChar x = false) :
    ∀ fuel s, (∀ c ∈ s, isAsciiChar c = true) → replaceAllAux fuel pat rep s = s := by
  intro fuel
  induction fuel with
  | zero => intro s _; rfl
  | succ n ih =>
    intro s hs
    cases s with
    | nil => rfl
    | cons c rest =>
      have hpre : pat.isPrefixOf (c :: rest) = false := by
        by_contra hcon
        rw [Bool.not_eq_false] at hcon
        have hsub := (List.isPrefixOf_iff_prefix.mp hcon).subset
        have := hs x (hsub hx)
        rw [this] at hxa
        exact Bool.noConfusion hxa
      simp only [replaceAllAux, hpre, Bool.false_eq_true, if_false, List.cons.injEq, true_and]
      exact ih rest (fun y hy => hs y (List.mem_cons_of_mem _ hy))

theorem flatten_map_decompose_ascii :
    ∀ s : List Char, (∀ c ∈ s, isAsciiChar c = true) → (s.map decompose).flatten = s := by
  intro s
  induction s with
  | nil => intro _; rfl
  | cons c rest ih =>
    intro hs
    simp only [List.map_cons, List.flatten_cons,
      decompose_ascii c (hs c (List.mem_cons_self _ _)),
      ih (fun y hy => hs y (List.mem_cons_of_mem _ hy))]
    rfl

theorem normalizeChars_ascii (s : List Char) : ∀ c ∈ normalizeChars s, isAsciiChar c = true := by
  intro c hc
  simp only [normalizeChars] at hc
  exact List.of_mem_filter hc

theorem normalizeChars_id_of_ascii (s : List Char) (hs : ∀ c ∈ s, isAsciiChar c = true) :
    normalizeChars s = s := by
  have hb : isAsciiChar 'º' = false := by decide
  simp only [normalizeChars, pyReplace]
  rw [replaceAllAux_id _ _ 'º' (by simp) hb _ s hs]
  rw [replaceAllAux_id _ _ 'º' (by simp) hb _ s hs]
  rw [flatten_map_decompose_ascii s hs]
  have h1 : List.filter (fun c => !isCombining c) s = s :=
    List.filter_eq_self.mpr (fun c hc => by simp [isCombining_ascii c (hs c hc)])
  rw [h1]
  exact List.filter_eq_self.mpr hs

/-- Claim C7: text normalization is idempotent — for every input string
`s`, `normalize_text (normalize_text s) = normalize_text s`. -/
theorem C7_normalize_idempotent (s : String) :
    normalize_text (normalize_text s) = normalize_text s := by
  by_cases hs : s = ""
  · subst hs; rfl
  · have hdef : normalize_text s = String.mk (normalizeChars s.data) := by
      simp [normalize_text, hs]
    by_cases ht : normalize_text s = ""
    · rw [ht]; rfl
    · rw [hdef] at ht ⊢
      rw [normalize_text, if_neg ht]
      have hmkdata : (String.mk (normalizeChars s.data)).data = normalizeChars s.data := rfl
      rw [hmkdata, normalizeChars_id_of_ascii _ (normalizeChars_ascii s.data)]

/-! ### Claims about the extractor (C5, C6) -/

/-- Claim C5: every successfully extracted record satisfies
`active_bases == available_bikes + free_bases` with the record's own
post-fallback field values (Python addition). -/
theorem C5_active_bases_sum (ts : String) (station : JVal) (r : StationRecord) (w : Bool)
    (h : extractStation ts station = .ok (r, w)) :
    pyAdd r.available_bikes r.free_bases = .ok r.active_bases := by
  cases station with
  | obj d =>
    simp only [extractStation] at h
    split at h
    · exact Except.noConfusion h
    split at h
    · exact Except.noConfusion h
    split at h
    · exact Except.noConfusion h
    split at h
    · exact Except.noConfusion h
    split at h
    · exact Except.noConfusion h
    rename_i active hadd
    rw [Except.ok.injEq, Prod.mk.injEq] at h
    obtain ⟨hr, hw⟩ := h
    subst hr
    simpa using hadd
  | null => exact Except.noConfusion h
  | bool b => exact Except.noConfusion h
  | int n => exact Except.noConfusion h
  | str s => exact Except.noConfusion h
  | arr l => exact Except.noConfusion h

/-- A fully specified station the extractor accepts, used to
instantiate the hypothesis-bearing theorems. -/
def stGood : JVal :=
  .obj [("id", .int 1), ("name", .str "Plaza"),
        ("geometry", .obj [("coordinates", .arr [.int 3, .int 4])]),
        ("dock_bikes", .int 5), ("free_bases", .int 7),
        ("total_bases", .int 12), ("activate", .bool true)]

/-- The record the extractor produces for `stGood`. -/
def stGoodRec : StationRecord :=
  { timestamp := "t0", station_id := .int 1, name := "Plaza", address := ""
    longitude := .int 3, latitude := .int 4, total_bases := .int 12
    active_bases := .int 12, available_bikes := .int 5, free_bases := .int 7
    reservations := .int 0, status := 1 }

theorem C5_active_bases_sum_witness :
    pyAdd stGoodRec.available_bikes stGoodRec.free_bases = .ok stGoodRec.active_bases :=
  C5_active_bases_sum "t0" stGood stGoodRec false rfl

/-- The spec's `total_bases ≥ active_bases` comparison between two
record field values. -/
def jGe : JVal → JVal → Bool
  | .int a, .int b => a ≥ b
  | _, _ => false

/-- A station whose source `total_bases` (1) is nonzero but smaller
than `dock_bikes + free_bases` (6). -/
def stBadTotal : JVal :=
  .obj [("dock_bikes", .int 3), ("free_bases", .int 3), ("total_bases", .int 1),
        ("geometry", .obj [("coordinates", .arr [.int 3, .int 4])])]

/-- The record the extractor produces for `stBadTotal`. -/
def stBadTotalRec : StationRecord :=
  { timestamp := "t0", station_id := .null, name := "", address := ""
    longitude := .int 3, latitude := .int 4, total_bases := .int 1
    active_bases := .int 6, available_bikes := .int 3, free_bases := .int 3
    reservations := .int 0, status := 0 }

/-- Claim C6 counterexample: `stBadTotal` is successfully extracted,
yet its record has `total_bases = 1 < 6 = active_bases`, refuting the
claimed invariant `total_bases ≥ active_bases`. -/
theorem C6_counterexample :
    extractStation "t0" stBadTotal = .ok (stBadTotalRec, false) ∧
      jGe stBadTotalRec.total_bases stBadTotalRec.active_bases = false :=
  ⟨rfl, rfl⟩

/-- Claim C6 (amended): when the source `total_bases` field is missing
or compares equal to zero, the extractor sets the record's
`total_bases` to its `active_bases`; for a nonzero source total no
`total_bases ≥ active_bases` bound holds. -/
theorem C6_total_bases_fallback (ts : String) (d : List (String × JVal))
    (r : StationRecord) (w : Bool)
    (h : extractStation ts (.obj d) = .ok (r, w))
    (hz : pyEqZero (pyDictGet d "total_bases" (.int 0)) = true) :
    r.total_bases = r.active_bases := by
  simp only [extractStation] at h
  split at h
  · exact Except.noConfusion h
  split at h
  · exact Except.noConfusion h
  split at h
  · exact Except.noConfusion h
  split at h
  · exact Except.noConfusion h
  split at h
  · exact Except.noConfusion h
  rw [Except.ok.injEq, Prod.mk.injEq] at h
  obtain ⟨hr, hw⟩ := h
  subst hr
  simp [hz]

/-- Field list of a station with no `total_bases` key at all. -/
def stNoTotalFields : List (String × JVal) :=
  [("dock_bikes", .int 2), ("free_bases", .int 3),
   ("geometry", .obj [("coordinates", .arr [.int 3, .int 4])])]

/-- The record the extractor produces for `JVal.obj stNoTotalFields`:
the missing total falls back to `active_bases = 5`. -/
def stNoTotalRec : StationRecord :=
  { timestamp := "t0", station_id := .null, name := "", address := ""
    longitude := .int 3, latitude := .int 4, total_bases := .int 5
    active_bases := .int 5, available_bikes := .int 2, free_bases := .int 3
    reservations := .int 0, status := 0 }

theorem C6_total_bases_fallback_witness :
    stNoTotalRec.total_bases = stNoTotalRec.active_bases :=
  C6_total_bases_fallback "t0" stNoTotalFields stNoTotalRec false rfl rfl

/-! ### Claims about batch extraction (C10, C1) -/

theorem extractLoop_error_of_mem (ts : String) (entries : List JVal) (e : JVal)
    (hmem : e ∈ entries) (he : isOkE (extractStation ts e) = false) :
    isOkE (extractLoop ts entries) = false := by
  induction entries with
  | nil => cases hmem
  | cons a rest ih =>
    rcases List.mem_cons.mp hmem with h | h
    · subst h
      cases hcase : extractStation ts e with
      | error err => simp [extractLoop, hcase, isOkE]
      | ok r => rw [hcase] at he; simp [isOkE] at he
    · cases hcase : extractStation ts a with
      | error err => simp [extractLoop, hcase, isOkE]
      | ok r =>
        have hrest := ih h
        cases hloop : extractLoop ts rest with
        | error err => simp [extractLoop, hcase, hloop, isOkE]
        | ok rs => rw [hloop] at hrest; simp [isOkE] at hrest

theorem extractLoop_ok_of_all (ts : String) (entries : List JVal)
    (h : ∀ e ∈ entries, isOkE (extractStation ts e) = true) :
    ∃ res, extractLoop ts entries = .ok res ∧ res.length = entries.length := by
  induction entries with
  | nil => exact ⟨[], rfl, rfl⟩
  | cons a rest ih =>
    obtain ⟨res, hres, hlen⟩ := ih (fun e he => h e (List.mem_cons_of_mem _ he))
    cases hcase : extractStation ts a with
    | error err =>
      have ha := h a (List.mem_cons_self _ _)
      rw [hcase] at ha
      simp [isOkE] at ha
    | ok r => exact ⟨r :: res, by simp [extractLoop, hcase, hres], by simp [hlen]⟩

/-- `process_stations_data` on a well-shaped payload reduces to the
result of the extraction loop over the payload's entries. -/
theorem process_mkPayload (ts : String) (entries : List JVal) :
    process_stations_data ts (mkPayload entries) =
      match extractLoop ts entries with
      | .error e => .error e
      | .ok results =>
        if (results.map (fun r => r.1)).isEmpty then .ok none
        else .ok (some (results.map (fun r => r.1), (results.filter (fun r => r.2)).length)) :=
  rfl

/-- Claim C10: a station entry whose `geometry` contains a
`coordinates` list of fewer than two elements raises `IndexError` at
the unguarded `[0]`/`[1]` access (the text fields having extracted
fine), and any batch containing such an entry fails as a whole instead
of skipping it. -/
theorem C10_short_coordinates_abort (ts : String) (d g : List (String × JVal))
    (l : List JVal) (entries : List JVal)
    (hname : isOkE (normalize_jval (pyDictGet d "name" (.str ""))) = true)
    (haddr : isOkE (normalize_jval (pyDictGet d "address" (.str ""))) = true)
    (hg : d.lookup "geometry" = some (.obj g))
    (hc : g.lookup "coordinates" = some (.arr l))
    (hlen : l.length < 2)
    (hmem : JVal.obj d ∈ entries) :
    extractStation ts (.obj d) = .error .indexError ∧
      isOkE (process_stations_data ts (mkPayload entries)) = false := by
  obtain ⟨nm, hnm⟩ : ∃ s, normalize_jval (pyDictGet d "name" (.str "")) = .ok s := by
    cases hcase : normalize_jval (pyDictGet d "name" (.str "")) with
    | ok s => exact ⟨s, rfl⟩
    | error e => rw [hcase] at hname; simp [isOkE] at hname
  obtain ⟨am, ham⟩ : ∃ s, normalize_jval (pyDictGet d "address" (.str "")) = .ok s := by
    cases hcase : normalize_jval (pyDictGet d "address" (.str "")) with
    | ok s => exact ⟨s, rfl⟩
    | error e => rw [hcase] at haddr; simp [isOkE] at haddr
  have hgd : pyDictGet d "geometry" (.obj []) = .obj g := by simp [pyDictGet, hg]
  have hcg : pyDictGet g "coordinates" (.arr [.int 0, .int 0]) = .arr l := by
    simp [pyDictGet, hc]
  have hex : extractStation ts (.obj d) = .error .indexError := by
    cases l with
    | nil => simp [extractStation, hnm, ham, rawCoord, hgd, hcg, pyIndex]
    | cons x l' =>
      cases l' with
      | nil => simp [extractStation, hnm, ham, rawCoord, hgd, hcg, pyIndex]
      | cons y l'' => simp at hlen; omega
  refine ⟨hex, ?_⟩
  have herr : isOkE (extractLoop ts entries) = false :=
    extractLoop_error_of_mem ts entries _ hmem (by rw [hex]; rfl)
  rw [process_mkPayload]
  cases hloop : extractLoop ts entries with
  | error err => simp [isOkE]
  | ok res => rw [hloop] at herr; simp [isOkE] at herr

/-- Field list of a station whose coordinates list has one element. -/
def stShortFields : List (String × JVal) :=
  [("geometry", .obj [("coordinates", .arr [.int 9])])]

theorem C10_short_coordinates_abort_witness :
    extractStation "t0" (.obj stShortFields) = .error .indexError ∧
      isOkE (process_stations_data "t0" (mkPayload [.obj stShortFields])) = false :=
  C10_short_coordinates_abort "t0" stShortFields [("coordinates", .arr [.int 9])]
    [.int 9] [.obj stShortFields] rfl rfl rfl rfl (by simp)
    (List.mem_singleton.mpr rfl)

/-- A station entry that makes the extractor raise: its coordinates
list is empty. -/
def stShortCoords : JVal := .obj [("geometry", .obj [("coordinates", .arr [])])]

/-- Claim C1 counterexample: a payload with one valid entry and one
malformed entry does not yield the valid records plus a counted
anomaly — the whole batch extraction raises `IndexError` and produces
nothing. -/
theorem C1_counterexample :
    process_stations_data "t0" (mkPayload [stGood, stShortCoords]) = .error .indexError :=
  rfl

/-- Claim C1 (amended): station entries are processed independently
only as long as none of them raises — when every entry extracts
without an exception, the batch yields exactly one record per entry
(zero-coordinate anomalies are warnings, not failures) and is reported
as a failure (`None`) exactly when the data array is empty; an entry
that raises aborts the whole batch. -/
theorem C1_per_entry_amended (ts : String) (entries : List JVal)
    (h : ∀ e ∈ entries, isOkE (extractStation ts e) = true) :
    (entries = [] → process_stations_data ts (mkPayload entries) = .ok none) ∧
    (entries ≠ [] → ∃ res : List StationRecord × Nat,
      process_stations_data ts (mkPayload entries) = .ok (some res) ∧
      res.1.length = entries.length) := by
  obtain ⟨res, hres, hlen⟩ := extractLoop_ok_of_all ts entries h
  constructor
  · intro he; subst he; rfl
  · intro hne
    refine ⟨(res.map (fun r => r.1), (res.filter (fun r => r.2)).length), ?_, by simp [hlen]⟩
    rw [process_mkPayload, hres]
    cases res with
    | nil =>
      exfalso
      exact hne (List.eq_nil_of_length_eq_zero (hlen ▸ rfl))
    | cons r rs => simp [List.isEmpty]

theorem C1_per_entry_amended_witness :
    ∃ res : List StationRecord × Nat,
      process_stations_data "t0" (mkPayload [stGood]) = .ok (some res) ∧
      res.1.length = [stGood].length :=
  (C1_per_entry_amended "t0" [stGood]
    (by intro e he; rw [List.mem_singleton.mp he]; rfl)).2 (by simp)

/-! ### Collection cycle state (`BiciMADCollector.collect_data` and friends) -/

/-- The collector's `collection_stats` counters (the `start_time`
entry, a wall-clock datetime, is not part of any claim). -/
structure Stats where
  collections_made : Nat
  total_files : Nat
  errors : Nat
  deriving DecidableEq, Repr

/-- All-zero counters, as `BiciMADCollector.__init__` sets them. -/
def Stats.init : Stats := ⟨0, 0, 0⟩

/-- One line of a CSV file: the single header row or a data row
rendered from a station record. -/
inductive CsvRow where
  | header
  | row (r : StationRecord)
  deriving Repr

/-- The filesystem state the collector touches: the stored raw JSON
snapshots, the cumulative history CSV (`none` when the file does not
exist yet) and the per-cycle CSV files. -/
structure FS where
  snapshots : List JVal
  history : Option (List CsvRow)
  perCycle : List (List CsvRow)
  deriving Repr

/-- A collector instance's full state: counters plus filesystem. -/
structure World where
  stats : Stats
  fs : FS
  deriving Repr

/-- The outside interactions of one cycle: the outcome of the HTTP
fetch (`.error` models a `requests` transport/HTTP exception) and
whether the raw-snapshot file write succeeds; `ts` is the cycle's
timestamp string. -/
structure CycleInput where
  fetch : Except Unit JVal
  snapshotOk : Bool
  ts : String

/-- `BiciMADCollector.get_station_info`: returns the JSON payload, or
logs, bumps the error counter and returns `None` on a
`RequestException`. -/
def get_station_info (r : Except Unit JVal) (st : Stats) : Option JVal × Stats :=
  match r with
  | .ok j => (some j, st)
  | .error _ => (none, { st with errors := st.errors + 1 })

/-- `BiciMADCollector.save_json_data`: `None` input is returned
untouched; otherwise the payload is written as a snapshot and
`total_files` is bumped, or the write raises (an `OSError` that this
function does not catch). -/
def save_json_data (writeOk : Bool) (data : Option JVal) (w : World) : Except PyErr World :=
  match data with
  | none => .ok w
  | some d =>
    if writeOk then
      .ok { stats := { w.stats with total_files := w.stats.total_files + 1 }
            fs := { w.fs with snapshots := w.fs.snapshots ++ [d] } }
    else .error .osError

/-- Render the DataFrame rows of one collection as CSV data rows. -/
def toRows (rows : List StationRecord) : List CsvRow :=
  rows.map CsvRow.row

/-- `BiciMADCollector.update_csv`: a `None` or empty DataFrame is a
warned no-op; otherwise the rows are appended to the history CSV
(created with a single header row on first write, appended with no
header afterwards) and a fresh per-cycle CSV (with header) is written. -/
def update_csv (df : Option (List StationRecord)) (fs : FS) : FS :=
  match df with
  | none => fs
  | some [] => fs
  | some rows =>
    let fs1 :=
      match fs.history with
      | some old => { fs with history := some (old ++ toRows rows) }
      | none => { fs with history := some (CsvRow.header :: toRows rows) }
    { fs1 with perCycle := fs1.perCycle ++ [CsvRow.header :: toRows rows] }

/-- Increment the error counter, as every `except` arm of
`collect_data` does. -/
def bumpErr (w : World) : World :=
  { w with stats := { w.stats with errors := w.stats.errors + 1 } }

/-- `BiciMADCollector.collect_data`: one fetch → snapshot → extract →
append cycle, with the single top-level `except Exception` turning any
raised error into a logged error count.  Always returns normally. -/
def collect_data (inp : CycleInput) (w : World) : World :=
  let fetched := get_station_info inp.fetch w.stats
  let w1 : World := { w with stats := fetched.2 }
  match fetched.1 with
  | none => bumpErr w1
  | some data =>
    if pyTruthy data then
      match save_json_data inp.snapshotOk (some data) w1 with
      | .error _ => bumpErr w1
      | .ok w2 =>
        match process_stations_data inp.ts data with
        | .error _ => bumpErr w2
        | .ok none => bumpErr w2
        | .ok (some (rows, _)) =>
          if rows.isEmpty then bumpErr w2
          else
            let w3 : World := { w2 with fs := update_csv (some rows) w2.fs }
            { w3 with stats := { w3.stats with
                collections_made := w3.stats.collections_made + 1 } }
    else bumpErr w1

/-! ### Scheduler-mode loop models -/

/-- Interval mode (`BiciMAD_Data_Collector.main` + `schedule`): one
collector instance runs every cycle, so one `World` is threaded
through the whole run. -/
def runCyclesFrom (w : World) : List CycleInput → World
  | [] => w
  | i :: rest => runCyclesFrom (collect_data i w) rest

/-- One cycle of windowed mode (`BiciMAD_Scheduled_Collector.main`):
`collector = BiciMADCollector()` builds a fresh instance — counters
start from zero — while the filesystem persists from previous cycles. -/
def scheduledCycle (inp : CycleInput) (fs : FS) : World :=
  collect_data inp { stats := Stats.init, fs := fs }

/-- Windowed mode over a list of cycles: the state of the most recent
collector instance after the last cycle. -/
def scheduledRunFrom (fs : FS) : List CycleInput → World
  | [] => { stats := Stats.init, fs := fs }
  | [i] => scheduledCycle i fs
  | i :: rest => scheduledRunFrom (scheduledCycle i fs).fs rest

/-! ### Claim C8: history append semantics -/

/-- Claim C8: a non-empty record set creates the history file with
exactly one header row followed by the records when it does not exist,
and otherwise appends the records after the existing content, which is
preserved unchanged and in order with no second header; a `None` or
empty record set is a complete no-op (history untouched, no per-cycle
file). -/
theorem C8_history_append (rows : List StationRecord) (fs : FS) :
    (rows ≠ [] → fs.history = none →
      (update_csv (some rows) fs).history = some (CsvRow.header :: toRows rows)) ∧
    (rows ≠ [] → ∀ old, fs.history = some old →
      (update_csv (some rows) fs).history = some (old ++ toRows rows)) ∧
    update_csv none fs = fs ∧ update_csv (some []) fs = fs := by
  refine ⟨?_, ?_, rfl, rfl⟩
  · intro hne hnone
    cases rows with
    | nil => exact absurd rfl hne
    | cons r rs => simp [update_csv, hnone]
  · intro hne old hold
    cases rows with
    | nil => exact absurd rfl hne
    | cons r rs => simp [update_csv, hold]

/-- An empty filesystem: no snapshots, no history file, no per-cycle
files. -/
def fsEmpty : FS := { snapshots := [], history := none, perCycle := [] }

/-- A filesystem whose history file already holds a header and one
data row. -/
def fsOne : FS :=
  { snapshots := [], history := some [CsvRow.header, CsvRow.row stGoodRec], perCycle := [] }

theorem C8_history_append_witness :
    (update_csv (some [stGoodRec]) fsEmpty).history =
        some (CsvRow.header :: toRows [stGoodRec]) ∧
      (update_csv (some [stGoodRec]) fsOne).history =
        some ([CsvRow.header, CsvRow.row stGoodRec] ++ toRows [stGoodRec]) ∧
      update_csv none fsOne = fsOne ∧ update_csv (some []) fsOne = fsOne :=
  ⟨(C8_history_append [stGoodRec] fsEmpty).1 (by simp) rfl,
   (C8_history_append [stGoodRec] fsOne).2.1 (by simp) _ rfl,
   (C8_history_append [stGoodRec] fsOne).2.2⟩

/-! ### Claim C2: fetch-failure frame -/

/-- The all-zero collector state over an empty filesystem. -/
def w0 : World := { stats := Stats.init, fs := fsEmpty }

/-- A cycle whose HTTP fetch raises a transport error. -/
def inFetchFail : CycleInput := { fetch := .error (), snapshotOk := true, ts := "t0" }

/-- Claim C2 counterexample: a failed fetch does not increment the
error counter by exactly 1 — `get_station_info` and `collect_data`
each bump it, so it goes up by 2. -/
theorem C2_counterexample :
    (collect_data inFetchFail w0).stats.errors ≠ w0.stats.errors + 1 := by decide

/-- Claim C2 (amended): a transport/HTTP fetch failure leaves the
whole filesystem (history, snapshots, per-cycle files) unchanged,
leaves `collections_made` and `total_files` unchanged, increments
`errors` by exactly 2 (once inside `get_station_info`'s handler and
once in `collect_data`'s no-data branch), and the cycle returns
normally. -/
theorem C2_fetch_failure_frame (ok : Bool) (ts : String) (w : World) :
    collect_data { fetch := .error (), snapshotOk := ok, ts := ts } w =
      { w with stats := { w.stats with errors := w.stats.errors + 2 } } := by
  simp only [collect_data, get_station_info, bumpErr]

/-! ### Claim C3: snapshot-write failure -/

/-- A cycle that fetches a good payload but whose raw-snapshot write
raises. -/
def inSnapFail : CycleInput :=
  { fetch := .ok (mkPayload [stGood]), snapshotOk := false, ts := "t0" }

/-- Claim C3 is contradicted by the code: `collect_data` has no
handler around `save_json_data`, so a snapshot-write failure
propagates to the cycle's top-level `except`, which counts one error
and returns — extraction is never attempted and the history file is
untouched, as this evaluation at the failing input shows. -/
theorem C3_snapshot_failure_aborts_cycle :
    collect_data inSnapFail w0 = bumpErr w0 := rfl

/-! ### Claim C4: counter scoping across cycles -/

/-- Componentwise sum of two counter states. -/
def Stats.add (a b : Stats) : Stats :=
  ⟨a.collections_made + b.collections_made, a.total_files + b.total_files,
   a.errors + b.errors⟩

theorem Stats.add_assoc (a b c : Stats) :
    Stats.add (Stats.add a b) c = Stats.add a (Stats.add b c) := by
  simp [Stats.add, Nat.add_assoc]

theorem Stats.add_init (a : Stats) : Stats.add a Stats.init = a := by
  simp [Stats.add, Stats.init]

/-- One cycle's counter increments depend only on the cycle's inputs
and the filesystem, never on the incoming counter values, and are
added on top of them; the filesystem evolves independently of the
counters. -/
theorem collect_data_stats_add (i : CycleInput) (s : Stats) (fs : FS) :
    (collect_data i { stats := s, fs := fs }).stats =
        Stats.add s (collect_data i { stats := Stats.init, fs := fs }).stats ∧
      (collect_data i { stats := s, fs := fs }).fs =
        (collect_data i { stats := Stats.init, fs := fs }).fs := by
  obtain ⟨fetch, snapOk, ts⟩ := i
  cases fetch with
  | error e =>
    simp [collect_data, get_station_info, bumpErr, Stats.add, Stats.init]
  | ok data =>
    by_cases htr : pyTruthy data
    · cases snapOk with
      | false =>
        simp [collect_data, get_station_info, save_json_data, htr, bumpErr,
          Stats.add, Stats.init]
      | true =>
        simp only [collect_data, get_station_info, save_json_data, htr, if_true,
          reduceIte]
        cases hproc : process_stations_data ts data with
        | error e =>
          simp [bumpErr, Stats.add, Stats.init]
        | ok odf =>
          cases odf with
          | none => simp [bumpErr, Stats.add, Stats.init]
          | some df =>
            obtain ⟨rows, warns⟩ := df
            cases rows with
            | nil => simp [bumpErr, Stats.add, Stats.init, List.isEmpty]
            | cons r rs =>
              simp [bumpErr, Stats.add, Stats.init, List.isEmpty, update_csv]
    · simp [collect_data, get_station_info, htr, bumpErr, Stats.add, Stats.init]

theorem runCycles_stats_add (is : List CycleInput) :
    ∀ (s : Stats) (fs : FS),
      (runCyclesFrom { stats := s, fs := fs } is).stats =
          Stats.add s (runCyclesFrom { stats := Stats.init, fs := fs } is).stats ∧
        (runCyclesFrom { stats := s, fs := fs } is).fs =
          (runCyclesFrom { stats := Stats.init, fs := fs } is).fs := by
  induction is with
  | nil =>
    intro s fs
    exact ⟨(Stats.add_init s).symm, rfl⟩
  | cons i rest ih =>
    intro s fs
    obtain ⟨h1, h2⟩ := collect_data_stats_add i s fs
    show (runCyclesFrom (collect_data i { stats := s, fs := fs }) rest).stats =
        Stats.add s
          (runCyclesFrom (collect_data i { stats := Stats.init, fs := fs }) rest).stats ∧
      (runCyclesFrom (collect_data i { stats := s, fs := fs }) rest).fs =
        (runCyclesFrom (collect_data i { stats := Stats.init, fs := fs }) rest).fs
    generalize hA : collect_data i { stats := s, fs := fs } = wA at h1 h2 ⊢
    generalize hB : collect_data i { stats := Stats.init, fs := fs } = wB at h1 h2 ⊢
    obtain ⟨sa, fa⟩ := wA
    obtain ⟨sb, fb⟩ := wB
    simp only at h1 h2
    subst h1
    subst h2
    constructor
    · rw [(ih (Stats.add s sb) fa).1, (ih sb fa).1, Stats.add_assoc]
    · rw [(ih (Stats.add s sb) fa).2, (ih sb fa).2]

/-- Claim C4 counterexample: in windowed scheduler mode a fresh
collector (with zeroed counters) is built for every cycle, so after a
second failing cycle the reported error count is still 2 — the first
cycle's 2 errors were not carried over. -/
theorem C4_counterexample :
    (scheduledRunFrom fsEmpty [inFetchFail, inFetchFail]).stats.errors ≠
      (scheduledRunFrom fsEmpty [inFetchFail]).stats.errors + 2 := by decide

/-- Claim C4 (amended): only in interval mode are the counters
process-scoped accumulators — every cycle's increments add on top of
all prior cycles' counts.  In windowed mode each cycle constructs a
new collector, so the run's reported counters are those of the last
instance alone: the counters reset between cycles, not only on process
restart. -/
theorem C4_counters_scoping :
    (∀ (w : World) (is : List CycleInput),
      (runCyclesFrom w is).stats =
        Stats.add w.stats (runCyclesFrom { stats := Stats.init, fs := w.fs } is).stats) ∧
    (∀ (fs : FS) (i : CycleInput) (is : List CycleInput), is ≠ [] →
      scheduledRunFrom fs (i :: is) = scheduledRunFrom (scheduledCycle i fs).fs is) := by
  constructor
  · intro w is
    exact (runCycles_stats_add is w.stats w.fs).1
  · intro fs i is hne
    cases is with
    | nil => exact absurd rfl hne
    | cons j rest => rfl

theorem C4_counters_scoping_witness :
    (runCyclesFrom w0 [inFetchFail]).stats =
        Stats.add w0.stats
          (runCyclesFrom { stats := Stats.init, fs := w0.fs } [inFetchFail]).stats ∧
      scheduledRunFrom fsEmpty [inFetchFail, inFetchFail] =
        scheduledRunFrom (scheduledCycle inFetchFail fsEmpty).fs [inFetchFail] :=
  ⟨C4_counters_scoping.1 w0 [inFetchFail],
   C4_counters_scoping.2 fsEmpty inFetchFail [inFetchFail] (by simp)⟩

/-! ### Claim C9: windowed scheduler window bound -/

/-- The `while next_run <= end_time` loop of
`BiciMAD_Scheduled_Collector.main`, over integer wall-clock seconds.
Each list element is the duration of the next cycle (the model covers
finitely many potential cycles); `t` is the current time and `nextRun`
the scheduled trigger of the pending cycle.  After a cycle finishes at
`t + d`, the next trigger is recomputed as `t + d + interval`; if it
exceeds the end time the loop stops, otherwise it sleeps until that
trigger (no sleep when the wait is not positive).  The returned list
holds the scheduled trigger time of every cycle actually run. -/
def schedLoop (interval endT : Nat) : List Nat → Nat → Nat → List Nat
  | [], _, _ => []
  | d :: durs, t, nextRun =>
    if nextRun ≤ endT then
      let t1 := t + d
      let nextRun' := t1 + interval
      if endT < nextRun' then [nextRun]
      else nextRun :: schedLoop interval endT durs (max t1 nextRun') nextRun'
    else []

/-- `BiciMAD_Scheduled_Collector.main`'s scheduling skeleton: sleep
until the start time when it lies in the future, set the first trigger
to the current clock, then loop until the end time. -/
def scheduledMain (durs : List Nat) (interval now0 startT endT : Nat) : List Nat :=
  schedLoop interval endT durs (max now0 startT) (max now0 startT)

theorem schedLoop_triggers_le (interval endT : Nat) :
    ∀ (durs : List Nat) (t nextRun : Nat),
      ∀ x ∈ schedLoop interval endT durs t nextRun, x ≤ endT := by
  intro durs
  induction durs with
  | nil => intro t nr x hx; cases hx
  | cons d rest ih =>
    intro t nr x hx
    simp only [schedLoop] at hx
    by_cases h1 : nr ≤ endT
    · rw [if_pos h1] at hx
      by_cases h2 : endT < t + d + interval
      · rw [if_pos h2] at hx
        rw [List.mem_singleton.mp hx]
        exact h1
      · rw [if_neg h2] at hx
        rcases List.mem_cons.mp hx with h | h
        · rw [h]; exact h1
        · exact ih _ _ x h
    · rw [if_neg h1] at hx; cases hx

theorem schedLoop_cons_run (interval endT d : Nat) (durs : List Nat) (t nextRun : Nat)
    (h1 : nextRun ≤ endT) (h2 : ¬ endT < t + d + interval) :
    schedLoop interval endT (d :: durs) t nextRun =
      nextRun :: schedLoop interval endT durs (t + d + interval) (t + d + interval) := by
  simp only [schedLoop, if_pos h1, if_neg h2]
  rw [Nat.max_eq_right (Nat.le_add_right _ _)]

theorem schedLoop_cons_last (interval endT d : Nat) (durs : List Nat) (t nextRun : Nat)
    (h1 : nextRun ≤ endT) (h2 : endT < t + d + interval) :
    schedLoop interval endT (d :: durs) t nextRun = [nextRun] := by
  simp only [schedLoop, if_pos h1, if_pos h2]

/-- Claim C9: (a) no cycle is ever run whose scheduled trigger time
exceeds the configured end time — after each cycle the next trigger is
computed and the loop stops without running it when it lies past the
end; (b) with a future start `T0` and end `T0 + 3·interval` (cycles of
negligible duration), exactly 4 cycles run, triggered at `T0`,
`T0 + interval`, `T0 + 2·interval` and `T0 + 3·interval`. -/
theorem C9_windowed_scheduler :
    (∀ (interval endT now0 startT : Nat) (durs : List Nat),
      ∀ x ∈ scheduledMain durs interval now0 startT endT, x ≤ endT) ∧
    (∀ (i T0 now0 : Nat), 0 < i → now0 ≤ T0 →
      scheduledMain [0, 0, 0, 0] i now0 T0 (T0 + 3 * i) =
        [T0, T0 + i, T0 + 2 * i, T0 + 3 * i]) := by
  constructor
  · intro interval endT now0 startT durs x hx
    exact schedLoop_triggers_le interval endT durs _ _ x hx
  · intro i T0 now0 hi hnow
    show schedLoop i (T0 + 3 * i) [0, 0, 0, 0] (max now0 T0) (max now0 T0) = _
    rw [Nat.max_eq_right hnow]
    rw [schedLoop_cons_run _ _ _ _ _ _ (by omega) (by omega)]
    rw [schedLoop_cons_run _ _ _ _ _ _ (by omega) (by omega)]
    rw [schedLoop_cons_run _ _ _ _ _ _ (by omega) (by omega)]
    rw [schedLoop_cons_last _ _ _ _ _ _ (by omega) (by omega)]
    simp only [List.cons.injEq, and_true, true_and]
    omega

theorem C9_windowed_scheduler_witness :
    (7 : Nat) ≤ 22 ∧
      scheduledMain [0, 0, 0, 0] 5 3 7 (7 + 3 * 5) = [7, 7 + 5, 7 + 2 * 5, 7 + 3 * 5] :=
  ⟨C9_windowed_scheduler.1 5 22 3 7 [0, 0, 0, 0] 7 (by decide),
   C9_windowed_scheduler.2 5 7 3 (by decide) (by decide)⟩

end BiciMAD
